import Mathlib

/-!
Verification development for the solar-panel monitoring server
(storage contract, failover delegator, health scoring, ingestion loop).

The embedding models JavaScript numbers as exact rationals extended with
the three non-finite IEEE values (`NaN`, `+Infinity`, `-Infinity`).
Finite arithmetic is exact (no rounding, no overflow): on the magnitudes
the program manipulates (percentages, scores in [0,100], temperatures)
the double-precision computations of the source coincide with rational
arithmetic, and every non-finite input is replaced by a finite default
before any arithmetic happens.
-/

namespace Solar

/-- A JavaScript number: `NaN`, `+Infinity`, `-Infinity`, or a finite value
(modelled as an exact rational). -/
inductive JsNum where
  | nan
  | posInf
  | negInf
  | fin (q : ℚ)
  deriving DecidableEq, Repr

namespace JsNum

/-- `isNaN(v) || !isFinite(v)`: true exactly on the three non-finite values. -/
def nonFinite : JsNum → Bool
  | .fin _ => false
  | _ => true

/-- JS addition restricted to the values this program produces. -/
def add : JsNum → JsNum → JsNum
  | .fin a, .fin b => .fin (a + b)
  | .nan, _ => .nan
  | _, .nan => .nan
  | .posInf, .negInf => .nan
  | .negInf, .posInf => .nan
  | .posInf, _ => .posInf
  | _, .posInf => .posInf
  | .negInf, _ => .negInf
  | _, .negInf => .negInf

/-- JS subtraction. -/
def sub : JsNum → JsNum → JsNum
  | .fin a, .fin b => .fin (a - b)
  | .nan, _ => .nan
  | _, .nan => .nan
  | .posInf, .posInf => .nan
  | .negInf, .negInf => .nan
  | .posInf, _ => .posInf
  | .negInf, _ => .negInf
  | _, .posInf => .negInf
  | _, .negInf => .posInf

/-- JS multiplication (0 × ∞ = NaN). -/
def mul : JsNum → JsNum → JsNum
  | .fin a, .fin b => .fin (a * b)
  | .nan, _ => .nan
  | _, .nan => .nan
  | .posInf, .posInf => .posInf
  | .negInf, .negInf => .posInf
  | .posInf, .negInf => .negInf
  | .negInf, .posInf => .negInf
  | .posInf, .fin b => if b > 0 then .posInf else if b < 0 then .negInf else .nan
  | .negInf, .fin b => if b > 0 then .negInf else if b < 0 then .posInf else .nan
  | .fin a, .posInf => if a > 0 then .posInf else if a < 0 then .negInf else .nan
  | .fin a, .negInf => if a > 0 then .negInf else if a < 0 then .posInf else .nan

/-- JS division (only used with nonzero finite divisors in this program). -/
def div : JsNum → JsNum → JsNum
  | .fin a, .fin b =>
      if b = 0 then (if a = 0 then .nan else if a > 0 then .posInf else .negInf)
      else .fin (a / b)
  | .nan, _ => .nan
  | _, .nan => .nan
  | .posInf, .posInf => .nan
  | .posInf, .negInf => .nan
  | .negInf, .posInf => .nan
  | .negInf, .negInf => .nan
  | .posInf, .fin b => if b < 0 then .negInf else .posInf
  | .negInf, .fin b => if b < 0 then .posInf else .negInf
  | .fin _, .posInf => .fin 0
  | .fin _, .negInf => .fin 0

/-- `Math.abs`. -/
def abs : JsNum → JsNum
  | .nan => .nan
  | .posInf => .posInf
  | .negInf => .posInf
  | .fin a => .fin |a|

/-- `Math.max` of two values (NaN-propagating). -/
def jmax : JsNum → JsNum → JsNum
  | .nan, _ => .nan
  | _, .nan => .nan
  | .posInf, _ => .posInf
  | _, .posInf => .posInf
  | .negInf, b => b
  | a, .negInf => a
  | .fin a, .fin b => .fin (max a b)

/-- `Math.min` of two values (NaN-propagating). -/
def jmin : JsNum → JsNum → JsNum
  | .nan, _ => .nan
  | _, .nan => .nan
  | .negInf, _ => .negInf
  | _, .negInf => .negInf
  | .posInf, b => b
  | a, .posInf => a
  | .fin a, .fin b => .fin (min a b)

/-- `Math.round`: round half toward +∞ on finite values, identity on ±∞, NaN on NaN. -/
def round : JsNum → JsNum
  | .nan => .nan
  | .posInf => .posInf
  | .negInf => .negInf
  | .fin a => .fin (⌊a + 1/2⌋ : ℤ)

end JsNum

/-- The `safeValue` helper of `calculateHealthScore`:
`isNaN(val) || !isFinite(val) ? defaultVal : val`. -/
def safeValue (val defaultVal : JsNum) : JsNum :=
  if val.nonFinite then defaultVal else val

/-- A stored sensor reading (timestamps as integer epoch milliseconds). -/
structure SensorReading where
  id : String
  panelId : String
  timestamp : ℤ
  energyOutput : JsNum
  sunlightIntensity : JsNum
  temperature : JsNum
  dustLevel : JsNum
  tiltAngle : JsNum
  efficiencyPercent : JsNum
  dustStatus : String
  powerOutputMW : JsNum
  overload : Bool
  sweepEnable : Bool
  autoMode : Bool
  currentLevelMA : JsNum
  cleaningDone : Bool
  deriving DecidableEq, Repr

/-- An insert-reading (`InsertSensorReading`): no id and no timestamp yet,
hardware-style fields optional. -/
structure InsertSensorReading where
  panelId : String
  energyOutput : JsNum
  sunlightIntensity : JsNum
  temperature : JsNum
  dustLevel : JsNum
  tiltAngle : JsNum
  efficiencyPercent : JsNum
  dustStatus : Option String := none
  powerOutputMW : Option JsNum := none
  overload : Option Bool := none
  sweepEnable : Option Bool := none
  autoMode : Option Bool := none
  currentLevelMA : Option JsNum := none
  cleaningDone : Option Bool := none
  deriving DecidableEq, Repr

/-- The health-score breakdown returned by `calculateHealthScore`. -/
structure HealthScoreFactors where
  efficiencyScore : JsNum
  dustScore : JsNum
  temperatureScore : JsNum
  totalScore : JsNum
  deriving DecidableEq, Repr

/-- `MemStorage.calculateHealthScore` (identical in `DbStorage`), line by line:
defaults for non-finite inputs, the three sub-scores, the rounded clamped total. -/
def calculateHealthScore (reading : SensorReading) : HealthScoreFactors :=
  let efficiency := safeValue reading.efficiencyPercent (.fin 50)
  let dust := safeValue reading.dustLevel (.fin 5)
  let temp := safeValue reading.temperature (.fin 25)
  let efficiencyScore := (efficiency.div (.fin 100)).mul (.fin 40)
  let dustScore := (((JsNum.fin 10).sub dust).div (.fin 10)).mul (.fin 30)
  let tempDiff := (temp.sub (.fin 25)).abs
  let temperatureScore := JsNum.jmax (.fin 0) ((JsNum.fin 30).sub (tempDiff.mul (.fin (3/2))))
  let totalScore := ((efficiencyScore.add dustScore).add temperatureScore).round
  { efficiencyScore := (safeValue efficiencyScore (.fin 20)).round
    dustScore := (safeValue dustScore (.fin 15)).round
    temperatureScore := (safeValue temperatureScore (.fin 15)).round
    totalScore := JsNum.jmin (.fin 100) (JsNum.jmax (.fin 0) (safeValue totalScore (.fin 50))) }

/-- The finite value of a JS number, or the given default when non-finite
(the value `safeValue` produces, viewed in ℚ). -/
def finOr : JsNum → ℚ → ℚ
  | .fin q, _ => q
  | _, d => d

theorem safeValue_eq_finOr (v : JsNum) (d : ℚ) :
    safeValue v (.fin d) = .fin (finOr v d) := by
  cases v <;> rfl

/-- The spec's reference description of the health score, written over exact
rationals: substitute defaults for non-finite inputs, then
`efficiencyScore = (efficiency/100)*40`, `dustScore = ((10-dust)/10)*30`
(not clamped), `temperatureScore = max 0 (30 - 1.5*|temperature-25|)`,
`totalScore` = the rounded sum clamped to [0,100], each sub-score rounded
(half toward +∞). After defaulting, every quantity is a finite rational, so
the spec's re-defaulting of a non-finite sub-score or total never fires. -/
def healthScoreSpec (reading : SensorReading) : HealthScoreFactors :=
  let efficiency : ℚ := finOr reading.efficiencyPercent 50
  let dust : ℚ := finOr reading.dustLevel 5
  let temp : ℚ := finOr reading.temperature 25
  let efficiencyScore : ℚ := efficiency / 100 * 40
  let dustScore : ℚ := (10 - dust) / 10 * 30
  let temperatureScore : ℚ := max 0 (30 - |temp - 25| * (3/2))
  let total : ℚ := (⌊efficiencyScore + dustScore + temperatureScore + 1/2⌋ : ℤ)
  { efficiencyScore := .fin (⌊efficiencyScore + 1/2⌋ : ℤ)
    dustScore := .fin (⌊dustScore + 1/2⌋ : ℤ)
    temperatureScore := .fin (⌊temperatureScore + 1/2⌋ : ℤ)
    totalScore := .fin (min 100 (max 0 total)) }

theorem calculateHealthScore_eq_spec (r : SensorReading) :
    calculateHealthScore r = healthScoreSpec r := by
  unfold calculateHealthScore healthScoreSpec
  rw [safeValue_eq_finOr, safeValue_eq_finOr, safeValue_eq_finOr]
  simp [JsNum.div, JsNum.mul, JsNum.add, JsNum.sub, JsNum.abs, JsNum.jmax,
    JsNum.jmin, JsNum.round, safeValue, JsNum.nonFinite]

/-- C4: `calculateHealthScore` agrees with the reference definition on every
reading (defaults for non-finite inputs, `(efficiency/100)*40`,
`((10-dust)/10)*30` unclamped, `max 0 (30 - 1.5*|temperature-25|)`, rounded
sub-scores, rounded total clamped to [0,100]); in particular
(100, 0, 25) yields (40, 30, 30, 100) and efficiency `NaN` with dust 5 and
temperature 25 yields efficiency score 20. -/
theorem calculateHealthScore_matches_reference :
    (∀ r : SensorReading, calculateHealthScore r = healthScoreSpec r) ∧
    calculateHealthScore
        ⟨"r", "p", 0, .fin 250, .fin 1000, .fin 25, .fin 0, .fin 30, .fin 100,
          "LOW", .fin 0, false, false, true, .fin 0, false⟩ =
      ⟨.fin 40, .fin 30, .fin 30, .fin 100⟩ ∧
    (calculateHealthScore
        ⟨"r", "p", 0, .fin 250, .fin 1000, .fin 25, .fin 5, .fin 30, .nan,
          "LOW", .fin 0, false, false, true, .fin 0, false⟩).efficiencyScore =
      .fin 20 := by
  refine ⟨calculateHealthScore_eq_spec, ?_, ?_⟩
  · rw [calculateHealthScore_eq_spec]
    simp only [healthScoreSpec, finOr]
    norm_num
  · rw [calculateHealthScore_eq_spec]
    simp only [healthScoreSpec, finOr]
    norm_num

/-! ## Storage failover delegator (`StorageDelegator`) -/

/-- Does `needle` occur at the head of `haystack`? (char-list version). -/
def charsLead : List Char → List Char → Bool
  | [], _ => true
  | _ :: _, [] => false
  | a :: as, b :: bs => a == b && charsLead as bs

/-- JS `haystack.includes(needle)` on char lists. -/
def listIncludes (haystack needle : List Char) : Bool :=
  (List.range (haystack.length + 1)).any fun i =>
    charsLead needle (haystack.drop i)

/-- ASCII lowercasing of one character (JS `toLowerCase` restricted to the
ASCII error messages the backends produce). -/
def lowerChar (c : Char) : Char :=
  if 65 ≤ c.toNat ∧ c.toNat ≤ 90 then Char.ofNat (c.toNat + 32) else c

/-- The delegator's connectivity-error classifier: lowercase the message and
test it for the eight connectivity substrings. -/
def isConnectionError (msg : String) : Bool :=
  let m := msg.toList.map lowerChar
  listIncludes m "connection".toList ||
  listIncludes m "timeout".toList ||
  listIncludes m "econn".toList ||
  listIncludes m "econnrefused".toList ||
  listIncludes m "enotfound".toList ||
  listIncludes m "network".toList ||
  listIncludes m "socket".toList ||
  listIncludes m "terminated".toList

/-- `MAX_DB_FAILURES` of `StorageDelegator`. -/
def MAX_DB_FAILURES : Nat := 3

/-- The mutable fields of `StorageDelegator` that govern routing:
whether a durable backend was configured (`dbStorage !== null`), the
consecutive connectivity-failure counter, and the permanent fallback flag. -/
structure DelegState where
  dbConfigured : Bool
  dbFailureCount : Nat
  usingMemStorage : Bool
  deriving DecidableEq, Repr

/-- `new StorageDelegator(useDatabase)`. -/
def mkDelegator (useDatabase : Bool) : DelegState :=
  { dbConfigured := useDatabase, dbFailureCount := 0, usingMemStorage := false }

/-- The exported `storage` singleton: `new StorageDelegator(false)`. -/
def storageState : DelegState := mkDelegator false

/-- What one delegated call does, observably: which backends were attempted
and what the caller receives (`.error` = the exception propagates). -/
structure CallOutcome (α : Type) where
  dbAttempted : Bool
  memAttempted : Bool
  result : Except String α
  deriving Repr

/-- One call through the delegator. `dbBeh` is what the durable backend would
do for this call (`.error msg` = it throws with message `msg`); `memVal` is
the in-memory backend's result for the same call. Mirrors
`createWrappedStorage`: route to the in-memory backend when none is
configured or after the permanent switch; otherwise attempt the durable
backend, reset the counter on success, classify a thrown error, increment
the counter and fall back on a connectivity error (switching permanently at
the threshold), and re-throw any other error. -/
def delegCall {α : Type} (s : DelegState) (dbBeh : Except String α) (memVal : α) :
    CallOutcome α × DelegState :=
  if !s.dbConfigured || s.usingMemStorage then
    (⟨false, true, .ok memVal⟩, s)
  else
    match dbBeh with
    | .ok v => (⟨true, false, .ok v⟩, { s with dbFailureCount := 0 })
    | .error msg =>
      if isConnectionError msg then
        let c := s.dbFailureCount + 1
        let s' : DelegState :=
          if MAX_DB_FAILURES ≤ c then
            { s with dbFailureCount := c, usingMemStorage := true }
          else
            { s with dbFailureCount := c }
        (⟨true, true, .ok memVal⟩, s')
      else
        (⟨true, false, .error msg⟩, s)

/-- A sequence of calls through the delegator, threading its state. -/
def runCalls {α : Type} (s : DelegState) :
    List (Except String α × α) → List (CallOutcome α) × DelegState
  | [] => ([], s)
  | c :: cs =>
    let r := delegCall s c.1 c.2
    let rest := runCalls r.2 cs
    (r.1 :: rest.1, rest.2)

theorem delegCall_memRoute {α : Type} (s : DelegState) (dbBeh : Except String α)
    (memVal : α) (h : s.dbConfigured = false ∨ s.usingMemStorage = true) :
    delegCall s dbBeh memVal = (⟨false, true, .ok memVal⟩, s) := by
  rcases h with h | h <;> simp [delegCall, h]

theorem runCalls_memRoute {α : Type} (s : DelegState)
    (h : s.dbConfigured = false ∨ s.usingMemStorage = true) :
    ∀ calls : List (Except String α × α),
      runCalls s calls = (calls.map fun c => ⟨false, true, .ok c.2⟩, s)
  | [] => rfl
  | c :: cs => by
    simp [runCalls, delegCall_memRoute s c.1 c.2 h, runCalls_memRoute s h cs]

/-- C1: in `DURABLE_ACTIVE`, three consecutive connectivity-classified
failures each return the in-memory backend's result (the caller never sees
the error), after the third the delegator is permanently in fallback, and
every subsequent call of any operation routes to the in-memory backend with
the durable backend never attempted again and no way back. -/
theorem delegator_three_connectivity_failures_permanent_fallback
    {α : Type} (e1 e2 e3 : String) (v1 v2 v3 : α)
    (h1 : isConnectionError e1 = true) (h2 : isConnectionError e2 = true)
    (h3 : isConnectionError e3 = true) :
    runCalls (mkDelegator true)
        [(.error e1, v1), (.error e2, v2), (.error e3, v3)] =
      ([⟨true, true, .ok v1⟩, ⟨true, true, .ok v2⟩, ⟨true, true, .ok v3⟩],
        ⟨true, 3, true⟩) ∧
    ∀ calls : List (Except String α × α),
      runCalls ⟨true, 3, true⟩ calls =
        (calls.map fun c => ⟨false, true, .ok c.2⟩, ⟨true, 3, true⟩) := by
  constructor
  · simp [runCalls, delegCall, mkDelegator, h1, h2, h3, MAX_DB_FAILURES]
  · exact runCalls_memRoute _ (Or.inr rfl)

/-- C1 witness: three "connection refused" errors from the durable backend. -/
theorem delegator_three_connectivity_failures_permanent_fallback_witness :
    runCalls (mkDelegator true)
        [(.error "connection refused", (1 : ℕ)), (.error "connect timeout", 2),
          (.error "socket hang up", 3)] =
      ([⟨true, true, .ok 1⟩, ⟨true, true, .ok 2⟩, ⟨true, true, .ok 3⟩],
        ⟨true, 3, true⟩) ∧
    ∀ calls : List (Except String ℕ × ℕ),
      runCalls ⟨true, 3, true⟩ calls =
        (calls.map fun c => ⟨false, true, .ok c.2⟩, ⟨true, 3, true⟩) :=
  delegator_three_connectivity_failures_permanent_fallback
    "connection refused" "connect timeout" "socket hang up" 1 2 3
    (by decide) (by decide) (by decide)

/-- C2: while the durable backend is active, a non-connectivity error is
re-thrown to the caller unchanged; the failure counter is not incremented,
the in-memory backend is not called, and the active backend does not
switch (the delegator state is exactly the one before the call). -/
theorem delegator_nonconnectivity_error_rethrown
    {α : Type} (s : DelegState) (msg : String) (memVal : α)
    (hdb : s.dbConfigured = true) (hmem : s.usingMemStorage = false)
    (hmsg : isConnectionError msg = false) :
    delegCall s (.error msg) memVal = (⟨true, false, .error msg⟩, s) := by
  simp [delegCall, hdb, hmem, hmsg]

/-- C2 witness: a constraint-violation error at failure count 1. -/
theorem delegator_nonconnectivity_error_rethrown_witness :
    delegCall ⟨true, 1, false⟩
        (.error "duplicate key value violates unique constraint") (0 : ℕ) =
      (⟨true, false, .error "duplicate key value violates unique constraint"⟩,
        ⟨true, 1, false⟩) :=
  delegator_nonconnectivity_error_rethrown ⟨true, 1, false⟩
    "duplicate key value violates unique constraint" 0 rfl rfl (by decide)

/-- C9: the exported `storage` singleton is a delegator constructed with
`useDatabase = false`: no durable backend is configured, the failure counter
starts at 0, and every sequence of calls is served entirely by the in-memory
backend with the durable backend never attempted and the delegator state
(counter included) never changing. -/
theorem storage_singleton_memory_only :
    storageState.dbConfigured = false ∧
    storageState.dbFailureCount = 0 ∧
    storageState.usingMemStorage = false ∧
    ∀ (α : Type) (calls : List (Except String α × α)),
      runCalls storageState calls =
        (calls.map fun c => ⟨false, true, .ok c.2⟩, storageState) :=
  ⟨rfl, rfl, rfl, fun _ => runCalls_memRoute _ (Or.inl rfl)⟩

/-! ## Recommendations and their query order -/

/-- Recommendation urgency (low / medium / high). -/
inductive Urgency where
  | low
  | medium
  | high
  deriving DecidableEq, Repr

/-- The `urgencyOrder` lookup table: high = 3, medium = 2, low = 1. -/
def urgencyOrderVal : Urgency → ℚ
  | .high => 3
  | .medium => 2
  | .low => 1

/-- A recommendation record. -/
structure Recommendation where
  id : String
  panelId : Option String
  timestamp : ℤ
  title : String
  description : String
  category : String
  urgency : Urgency
  impactScore : ℚ
  implemented : Bool
  deriving DecidableEq, Repr

/-- The comparator of `MemStorage.getRecommendations`: urgency difference
(descending), impact-score difference (descending) as tie-break. -/
def recCompare (a b : Recommendation) : ℚ :=
  let urgencyDiff := urgencyOrderVal b.urgency - urgencyOrderVal a.urgency
  if urgencyDiff ≠ 0 then urgencyDiff else b.impactScore - a.impactScore

/-- `a` may precede `b` under the `MemStorage` comparator. -/
def memRecLE (a b : Recommendation) : Prop := recCompare a b ≤ 0

instance : DecidableRel memRecLE := fun a b =>
  inferInstanceAs (Decidable (recCompare a b ≤ 0))

/-- `MemStorage.getRecommendations`: a stable sort of the stored
recommendations under `recCompare` (JS `Array.prototype.sort` is stable;
insertion sort realizes the same output for this consistent comparator). -/
def memGetRecommendations (recs : List Recommendation) : List Recommendation :=
  recs.insertionSort memRecLE

/-- `a` may precede `b` under `DbStorage.getRecommendations`'s
`orderBy(desc(recommendations.timestamp))`. -/
def dbRecLE (a b : Recommendation) : Prop := b.timestamp ≤ a.timestamp

instance : DecidableRel dbRecLE := fun a b =>
  inferInstanceAs (Decidable (b.timestamp ≤ a.timestamp))

/-- `DbStorage.getRecommendations`: the rows ordered by timestamp descending
(one concrete realization of the SQL order, which fixes no tie order). -/
def dbGetRecommendations (recs : List Recommendation) : List Recommendation :=
  recs.insertionSort dbRecLE

/-- The order the spec declares contractual: urgency descending
(high = 3, medium = 2, low = 1), impact score descending as tie-break. -/
def byUrgencyThenImpact (a b : Recommendation) : Prop :=
  urgencyOrderVal b.urgency < urgencyOrderVal a.urgency ∨
    (urgencyOrderVal b.urgency = urgencyOrderVal a.urgency ∧
      b.impactScore ≤ a.impactScore)

instance : DecidableRel byUrgencyThenImpact := fun a b =>
  inferInstanceAs (Decidable (_ ∨ _))

theorem memRecLE_iff (a b : Recommendation) :
    memRecLE a b ↔ byUrgencyThenImpact a b := by
  unfold memRecLE recCompare byUrgencyThenImpact
  rcases lt_trichotomy (urgencyOrderVal b.urgency) (urgencyOrderVal a.urgency) with h | h | h
  · simp only [sub_ne_zero]
    constructor
    · intro _; exact Or.inl h
    · intro _
      rw [if_pos (by exact fun he => absurd he (ne_of_lt h))]
      linarith
  · simp [h, sub_eq_zero, sub_nonpos]
  · simp only [sub_ne_zero]
    constructor
    · intro hle
      rw [if_pos (by exact fun he => absurd he.symm (ne_of_lt h))] at hle
      exact absurd hle (by simp; linarith)
    · intro hc
      rcases hc with hc | hc
      · exact absurd h (not_lt.mpr (le_of_lt hc))
      · exact absurd hc.1 (ne_of_gt h)

instance : IsTotal Recommendation memRecLE :=
  ⟨fun a b => by
    rw [memRecLE_iff, memRecLE_iff]
    unfold byUrgencyThenImpact
    rcases lt_trichotomy (urgencyOrderVal b.urgency) (urgencyOrderVal a.urgency) with h | h | h
    · exact Or.inl (Or.inl h)
    · rcases le_total b.impactScore a.impactScore with hi | hi
      · exact Or.inl (Or.inr ⟨h, hi⟩)
      · exact Or.inr (Or.inr ⟨h.symm, hi⟩)
    · exact Or.inr (Or.inl h)⟩

instance : IsTrans Recommendation memRecLE :=
  ⟨fun a b c hab hbc => by
    rw [memRecLE_iff] at *
    unfold byUrgencyThenImpact at *
    rcases hab with h1 | ⟨h1, h1'⟩ <;> rcases hbc with h2 | ⟨h2, h2'⟩
    · exact Or.inl (h2.trans h1)
    · exact Or.inl (lt_of_eq_of_lt h2 h1)
    · exact Or.inl (lt_of_lt_of_eq h2 h1)
    · exact Or.inr ⟨h2.trans h1, h2'.trans h1'⟩⟩

instance : IsTotal Recommendation dbRecLE :=
  ⟨fun a b => (le_total b.timestamp a.timestamp).imp id id⟩

instance : IsTrans Recommendation dbRecLE :=
  ⟨fun _ _ _ hab hbc => le_trans hbc hab⟩

/-- A low-urgency recommendation carrying the newer timestamp. -/
def recExA : Recommendation := ⟨"rec-a", none, 100, "A", "", "cleaning", .low, 10, false⟩

/-- A high-urgency recommendation carrying the older timestamp. -/
def recExB : Recommendation := ⟨"rec-b", none, 0, "B", "", "maintenance", .high, 50, false⟩

/-- C3 counterexample: on the same two stored recommendations (one low-urgency
with the newer timestamp, one high-urgency with the older timestamp) the two
backends return different orders, and the durable backend's answer is not
ordered by urgency descending. -/
theorem recommendations_order_counterexample :
    memGetRecommendations [recExA, recExB] ≠ dbGetRecommendations [recExA, recExB] ∧
    ¬ (dbGetRecommendations [recExA, recExB]).Sorted byUrgencyThenImpact := by
  have hmem : memGetRecommendations [recExA, recExB] = [recExB, recExA] := by
    norm_num [memGetRecommendations, memRecLE, recCompare, urgencyOrderVal,
      recExA, recExB, List.insertionSort, List.orderedInsert]
  have hdb : dbGetRecommendations [recExA, recExB] = [recExA, recExB] := by
    norm_num [dbGetRecommendations, dbRecLE, recExA, recExB,
      List.insertionSort, List.orderedInsert]
  rw [hmem, hdb]
  constructor
  · simp [recExA, recExB]
  · simp only [List.sorted_cons, byUrgencyThenImpact, urgencyOrderVal,
      recExA, recExB]
    norm_num

/-- C3 (amended): only the in-memory backend returns recommendations ordered
by urgency descending (high = 3, medium = 2, low = 1) with impact score
descending as tie-break; the durable backend returns them ordered by
timestamp descending instead. Both return a permutation of the stored set. -/
theorem recommendations_order_per_backend :
    (∀ l : List Recommendation,
        (memGetRecommendations l).Sorted byUrgencyThenImpact ∧
        (memGetRecommendations l).Perm l) ∧
    (∀ l : List Recommendation,
        (dbGetRecommendations l).Sorted dbRecLE ∧
        (dbGetRecommendations l).Perm l) := by
  constructor
  · intro l
    refine ⟨?_, List.perm_insertionSort _ l⟩
    exact (List.sorted_insertionSort memRecLE l).imp fun hab => (memRecLE_iff _ _).mp hab
  · intro l
    exact ⟨List.sorted_insertionSort dbRecLE l, List.perm_insertionSort _ l⟩

/-! ## In-memory storage (`MemStorage`): panels and readings -/

/-- A panel record. -/
structure Panel where
  id : String
  panelNumber : ℤ
  location : String
  installDate : ℤ
  healthScore : JsNum
  status : String
  lastMaintenance : Option ℤ
  notes : Option String
  deriving DecidableEq, Repr

/-- `Map.get` of a JS `Map` modelled as an insertion-ordered association list. -/
def mapGet {A : Type} (m : List (String × A)) (k : String) : Option A :=
  (m.find? fun p => p.1 == k).map (·.2)

/-- `Map.set`: overwrite the entry in place when the key is present (a JS
`Map` keeps the original insertion position), else append at the end. -/
def mapSet {A : Type} : List (String × A) → String → A → List (String × A)
  | [], k, v => [(k, v)]
  | p :: rest, k, v => if p.1 = k then (k, v) :: rest else p :: mapSet rest k v

theorem mapGet_mapSet_self {A : Type} (k : String) (v : A) :
    ∀ m : List (String × A), mapGet (mapSet m k v) k = some v
  | [] => by simp [mapGet, mapSet, List.find?]
  | p :: rest => by
    by_cases h : p.1 = k
    · simp [mapGet, mapSet, h, List.find?]
    · simpa [mapGet, mapSet, h, List.find?] using mapGet_mapSet_self k v rest

/-- The `MemStorage` state that panels and readings live in. -/
structure MemState where
  panels : List (String × Panel)
  sensorReadings : List (String × SensorReading)
  deriving Repr

/-- `MemStorage.getPanelById`. -/
def getPanelById (s : MemState) (id : String) : Option Panel :=
  mapGet s.panels id

/-- `MemStorage.updatePanelHealthScore`: mutate the panel's health score when
the panel exists, return it (or `none`). -/
def updatePanelHealthScore (s : MemState) (id : String) (healthScore : JsNum) :
    Option Panel × MemState :=
  match mapGet s.panels id with
  | some panel =>
    let p := { panel with healthScore := healthScore }
    (some p, { s with panels := mapSet s.panels id p })
  | none => (none, s)

/-- `MemStorage.createReading`: build the stored reading (fresh id, current
timestamp, hardware-field defaults), store it, then recompute the owning
panel's health score and persist it only when the computed total is finite. -/
def createReading (s : MemState) (ins : InsertSensorReading)
    (freshId : String) (now : ℤ) : SensorReading × MemState :=
  let reading : SensorReading :=
    { id := freshId
      panelId := ins.panelId
      timestamp := now
      energyOutput := ins.energyOutput
      sunlightIntensity := ins.sunlightIntensity
      temperature := ins.temperature
      dustLevel := ins.dustLevel
      tiltAngle := ins.tiltAngle
      efficiencyPercent := ins.efficiencyPercent
      dustStatus := ins.dustStatus.getD "UNKNOWN"
      powerOutputMW := ins.powerOutputMW.getD (.fin 0)
      overload := ins.overload.getD false
      sweepEnable := ins.sweepEnable.getD false
      autoMode := ins.autoMode.getD true
      currentLevelMA := ins.currentLevelMA.getD (.fin 0)
      cleaningDone := ins.cleaningDone.getD false }
  let s1 : MemState := { s with sensorReadings := mapSet s.sensorReadings freshId reading }
  let healthScore := calculateHealthScore reading
  if healthScore.totalScore.nonFinite then
    (reading, s1)
  else
    (reading, (updatePanelHealthScore s1 reading.panelId healthScore.totalScore).2)

theorem totalScore_fin_bounded (r : SensorReading) :
    ∃ q : ℚ, (calculateHealthScore r).totalScore = .fin q ∧ 0 ≤ q ∧ q ≤ 100 := by
  rw [calculateHealthScore_eq_spec]
  simp only [healthScoreSpec]
  exact ⟨_, rfl, le_min (by norm_num) (le_max_left _ _), min_le_left _ _⟩

theorem createReading_panel_update (s : MemState) (ins : InsertSensorReading)
    (freshId : String) (now : ℤ) (p : Panel)
    (hp : getPanelById s ins.panelId = some p) :
    ((calculateHealthScore (createReading s ins freshId now).1).totalScore.nonFinite = false →
      getPanelById (createReading s ins freshId now).2 ins.panelId =
        some { p with healthScore :=
          (calculateHealthScore (createReading s ins freshId now).1).totalScore }) ∧
    ((calculateHealthScore (createReading s ins freshId now).1).totalScore.nonFinite = true →
      getPanelById (createReading s ins freshId now).2 ins.panelId = some p) := by
  simp only [getPanelById] at hp
  simp only [createReading]
  split
  next hnf =>
    refine ⟨fun hfin => ?_, fun _ => ?_⟩
    · exact absurd hfin (by simp [hnf])
    · simpa [getPanelById] using hp
  next hnf =>
    refine ⟨fun _ => ?_, fun hfin => ?_⟩
    · simp [updatePanelHealthScore, getPanelById, hp, mapGet_mapSet_self]
    · exact absurd hfin (by simpa using hnf)

/-- C5: for a reading whose efficiency percent lies in [0,100], dust level in
[0,10] and temperature in [-50,150], the total health score is a finite value
in [0,100]. -/
theorem healthScore_total_in_range (r : SensorReading) (e d t : ℚ)
    (he : r.efficiencyPercent = .fin e) (hd : r.dustLevel = .fin d)
    (ht : r.temperature = .fin t)
    (he0 : 0 ≤ e) (he1 : e ≤ 100) (hd0 : 0 ≤ d) (hd1 : d ≤ 10)
    (ht0 : -50 ≤ t) (ht1 : t ≤ 150) :
    ∃ q : ℚ, (calculateHealthScore r).totalScore = .fin q ∧ 0 ≤ q ∧ q ≤ 100 :=
  totalScore_fin_bounded r

/-- C5 witness: efficiency 80, dust 2, temperature 30. -/
theorem healthScore_total_in_range_witness :
    ∃ q : ℚ,
      (calculateHealthScore
        ⟨"r1", "panel-1", 0, .fin 120, .fin 800, .fin 30, .fin 2, .fin 30,
          .fin 80, "LOW", .fin 0, false, false, true, .fin 0, false⟩).totalScore =
        .fin q ∧ 0 ≤ q ∧ q ≤ 100 :=
  healthScore_total_in_range
    ⟨"r1", "panel-1", 0, .fin 120, .fin 800, .fin 30, .fin 2, .fin 30,
      .fin 80, "LOW", .fin 0, false, false, true, .fin 0, false⟩
    80 2 30 rfl rfl rfl (by norm_num) (by norm_num) (by norm_num) (by norm_num)
    (by norm_num) (by norm_num)

/-- C6: creating a reading for an existing panel then reading the panel back
yields the health score `calculateHealthScore` computed for the stored
reading, unless that total was non-finite, in which case the panel's prior
health score is retained unchanged (and no error is raised). -/
theorem createReading_roundtrip_health (s : MemState) (ins : InsertSensorReading)
    (freshId : String) (now : ℤ) (p : Panel)
    (hp : getPanelById s ins.panelId = some p) :
    ((calculateHealthScore (createReading s ins freshId now).1).totalScore.nonFinite = false →
      getPanelById (createReading s ins freshId now).2 ins.panelId =
        some { p with healthScore :=
          (calculateHealthScore (createReading s ins freshId now).1).totalScore }) ∧
    ((calculateHealthScore (createReading s ins freshId now).1).totalScore.nonFinite = true →
      getPanelById (createReading s ins freshId now).2 ins.panelId = some p) :=
  createReading_panel_update s ins freshId now p hp

/-- A one-panel store used to exercise the reading/health round trip. -/
def panelEx1 : Panel := ⟨"panel-1", 1, "Row 1, Col 1", 0, .fin 90, "active", none, none⟩

/-- The store holding just `panelEx1`. -/
def stateEx1 : MemState := ⟨[("panel-1", panelEx1)], []⟩

/-- An insert-reading for `panelEx1`: efficiency 80, dust 2, temperature 30. -/
def insEx1 : InsertSensorReading :=
  ⟨"panel-1", .fin 200, .fin 800, .fin 30, .fin 2, .fin 30, .fin 80,
    none, none, none, none, none, none, none⟩

/-- C6 witness: a fresh reading (efficiency 80, dust 2, temperature 30) for a
panel whose prior health score is 90 rewrites the panel's health score to the
just-computed total. -/
theorem createReading_roundtrip_health_witness :
    getPanelById (createReading stateEx1 insEx1 "r2" 5).2 "panel-1" =
      some { panelEx1 with healthScore :=
        (calculateHealthScore (createReading stateEx1 insEx1 "r2" 5).1).totalScore } := by
  obtain ⟨q, hq, _, _⟩ := totalScore_fin_bounded (createReading stateEx1 insEx1 "r2" 5).1
  exact (createReading_roundtrip_health stateEx1 insEx1 "r2" 5 panelEx1
    (by decide)).1 (by rw [hq]; rfl)

/-- C10: the total health score is finite and in [0,100] for every reading,
non-finite fields included; hence the finiteness guard in `createReading`
always passes and the owning panel's health score is always updated. -/
theorem healthScore_finite_guard_unreachable :
    (∀ r : SensorReading, ∃ q : ℚ,
        (calculateHealthScore r).totalScore = .fin q ∧
        (calculateHealthScore r).totalScore.nonFinite = false ∧
        0 ≤ q ∧ q ≤ 100) ∧
    ∀ (s : MemState) (ins : InsertSensorReading) (freshId : String) (now : ℤ)
      (p : Panel), getPanelById s ins.panelId = some p →
      getPanelById (createReading s ins freshId now).2 ins.panelId =
        some { p with healthScore :=
          (calculateHealthScore (createReading s ins freshId now).1).totalScore } := by
  constructor
  · intro r
    obtain ⟨q, hq, h0, h1⟩ := totalScore_fin_bounded r
    exact ⟨q, hq, by rw [hq]; rfl, h0, h1⟩
  · intro s ins freshId now p hp
    obtain ⟨q, hq, _, _⟩ := totalScore_fin_bounded (createReading s ins freshId now).1
    exact (createReading_panel_update s ins freshId now p hp).1 (by rw [hq]; rfl)

/-- A one-panel store whose next reading has only `NaN` numeric fields. -/
def panelEx2 : Panel := ⟨"panel-7", 7, "Row 1, Col 7", 0, .fin 88, "active", none, none⟩

/-- The store holding just `panelEx2`. -/
def stateEx2 : MemState := ⟨[("panel-7", panelEx2)], []⟩

/-- An insert-reading for `panelEx2` whose numeric fields are all `NaN`. -/
def insEx2 : InsertSensorReading :=
  ⟨"panel-7", .nan, .nan, .nan, .nan, .nan, .nan,
    none, none, none, none, none, none, none⟩

/-- C10 witness: a reading whose numeric fields are all `NaN` still updates
the panel's health score (with the finite all-defaults total). -/
theorem healthScore_finite_guard_unreachable_witness :
    getPanelById (createReading stateEx2 insEx2 "r9" 11).2 "panel-7" =
      some { panelEx2 with healthScore :=
        (calculateHealthScore (createReading stateEx2 insEx2 "r9" 11).1).totalScore } :=
  healthScore_finite_guard_unreachable.2 stateEx2 insEx2 "r9" 11 panelEx2 (by decide)

/-! ## Auto-tilt settings singleton -/

/-- The auto-tilt configuration singleton. -/
structure AutoTiltSettings where
  id : String
  enabled : Bool
  mode : String
  minTiltAngle : ℚ
  maxTiltAngle : ℚ
  adjustmentInterval : ℚ
  useWeatherData : Bool
  aggressiveness : String
  updatedAt : ℤ
  deriving DecidableEq, Repr

/-- `Partial<InsertAutoTiltSettings>`: each updatable field present or absent. -/
structure AutoTiltPatch where
  enabled : Option Bool := none
  mode : Option String := none
  minTiltAngle : Option ℚ := none
  maxTiltAngle : Option ℚ := none
  adjustmentInterval : Option ℚ := none
  useWeatherData : Option Bool := none
  aggressiveness : Option String := none
  deriving DecidableEq, Repr

/-- `MemStorage.initializeAutoTiltSettings`: the default singleton. -/
def initializeAutoTiltSettings (freshId : String) (now : ℤ) : AutoTiltSettings :=
  { id := freshId
    enabled := false
    mode := "time_based"
    minTiltAngle := 15
    maxTiltAngle := 60
    adjustmentInterval := 60
    useWeatherData := true
    aggressiveness := "moderate"
    updatedAt := now }

/-- The spread `{ ...current, ...settings, updatedAt: new Date() }`: provided
fields overwrite, absent fields keep the current value, the timestamp is
refreshed, the id is untouched. -/
def spreadSettings (cur : AutoTiltSettings) (p : AutoTiltPatch) (now : ℤ) :
    AutoTiltSettings :=
  { id := cur.id
    enabled := p.enabled.getD cur.enabled
    mode := p.mode.getD cur.mode
    minTiltAngle := p.minTiltAngle.getD cur.minTiltAngle
    maxTiltAngle := p.maxTiltAngle.getD cur.maxTiltAngle
    adjustmentInterval := p.adjustmentInterval.getD cur.adjustmentInterval
    useWeatherData := p.useWeatherData.getD cur.useWeatherData
    aggressiveness := p.aggressiveness.getD cur.aggressiveness
    updatedAt := now }

/-- `MemStorage.updateAutoTiltSettings`: initialize the singleton first when
it does not exist yet, then merge and store the merged record (returned value,
new singleton state). -/
def updateAutoTiltSettings (st : Option AutoTiltSettings) (p : AutoTiltPatch)
    (freshId : String) (now : ℤ) : AutoTiltSettings × Option AutoTiltSettings :=
  let cur := match st with
    | some s => s
    | none => initializeAutoTiltSettings freshId now
  let merged := spreadSettings cur p now
  (merged, some merged)

/-- C7: a partial update merges exactly the provided fields onto the current
singleton — absent fields keep their prior value, present fields take the
provided value, the timestamp is refreshed and the id kept — the stored state
is again the single returned record, and an update against a missing
singleton first creates the default instance and merges onto it, so a record
is always returned. -/
theorem updateAutoTiltSettings_partial_merge :
    (∀ (cur : AutoTiltSettings) (p : AutoTiltPatch) (freshId : String) (now : ℤ),
      (updateAutoTiltSettings (some cur) p freshId now).2 =
        some (updateAutoTiltSettings (some cur) p freshId now).1 ∧
      (updateAutoTiltSettings (some cur) p freshId now).1.updatedAt = now ∧
      (updateAutoTiltSettings (some cur) p freshId now).1.id = cur.id ∧
      (p.enabled = none →
        (updateAutoTiltSettings (some cur) p freshId now).1.enabled = cur.enabled) ∧
      (∀ v, p.enabled = some v →
        (updateAutoTiltSettings (some cur) p freshId now).1.enabled = v) ∧
      (p.mode = none →
        (updateAutoTiltSettings (some cur) p freshId now).1.mode = cur.mode) ∧
      (∀ v, p.mode = some v →
        (updateAutoTiltSettings (some cur) p freshId now).1.mode = v) ∧
      (p.minTiltAngle = none →
        (updateAutoTiltSettings (some cur) p freshId now).1.minTiltAngle = cur.minTiltAngle) ∧
      (∀ v, p.minTiltAngle = some v →
        (updateAutoTiltSettings (some cur) p freshId now).1.minTiltAngle = v) ∧
      (p.maxTiltAngle = none →
        (updateAutoTiltSettings (some cur) p freshId now).1.maxTiltAngle = cur.maxTiltAngle) ∧
      (∀ v, p.maxTiltAngle = some v →
        (updateAutoTiltSettings (some cur) p freshId now).1.maxTiltAngle = v) ∧
      (p.adjustmentInterval = none →
        (updateAutoTiltSettings (some cur) p freshId now).1.adjustmentInterval =
          cur.adjustmentInterval) ∧
      (∀ v, p.adjustmentInterval = some v →
        (updateAutoTiltSettings (some cur) p freshId now).1.adjustmentInterval = v) ∧
      (p.useWeatherData = none →
        (updateAutoTiltSettings (some cur) p freshId now).1.useWeatherData =
          cur.useWeatherData) ∧
      (∀ v, p.useWeatherData = some v →
        (updateAutoTiltSettings (some cur) p freshId now).1.useWeatherData = v) ∧
      (p.aggressiveness = none →
        (updateAutoTiltSettings (some cur) p freshId now).1.aggressiveness =
          cur.aggressiveness) ∧
      (∀ v, p.aggressiveness = some v →
        (updateAutoTiltSettings (some cur) p freshId now).1.aggressiveness = v)) ∧
    ∀ (p : AutoTiltPatch) (freshId : String) (now : ℤ),
      updateAutoTiltSettings none p freshId now =
        (spreadSettings (initializeAutoTiltSettings freshId now) p now,
          some (spreadSettings (initializeAutoTiltSettings freshId now) p now)) := by
  refine ⟨fun cur p freshId now => ?_, fun _ _ _ => rfl⟩
  refine ⟨rfl, rfl, rfl, ?_, ?_, ?_, ?_, ?_, ?_, ?_, ?_, ?_, ?_, ?_, ?_, ?_, ?_⟩ <;>
    first
      | (intro h; simp [updateAutoTiltSettings, spreadSettings, h])
      | (intro v h; simp [updateAutoTiltSettings, spreadSettings, h])

/-- C7 witness: flipping only `enabled` on a concrete singleton keeps `mode`
and the other fields, refreshes the timestamp, and stores the result. -/
theorem updateAutoTiltSettings_partial_merge_witness :
    (updateAutoTiltSettings
        (some ⟨"s1", true, "weather_based", 10, 70, 30, false, "aggressive", 0⟩)
        { enabled := some false } "s2" 99).2 =
      some (updateAutoTiltSettings
        (some ⟨"s1", true, "weather_based", 10, 70, 30, false, "aggressive", 0⟩)
        { enabled := some false } "s2" 99).1 ∧
    (updateAutoTiltSettings
        (some ⟨"s1", true, "weather_based", 10, 70, 30, false, "aggressive", 0⟩)
        { enabled := some false } "s2" 99).1.enabled = false ∧
    (updateAutoTiltSettings
        (some ⟨"s1", true, "weather_based", 10, 70, 30, false, "aggressive", 0⟩)
        { enabled := some false } "s2" 99).1.mode = "weather_based" ∧
    (updateAutoTiltSettings
        (some ⟨"s1", true, "weather_based", 10, 70, 30, false, "aggressive", 0⟩)
        { enabled := some false } "s2" 99).1.updatedAt = 99 := by
  obtain ⟨h2, hts, _, _, hen, hmo, _⟩ :=
    (updateAutoTiltSettings_partial_merge.1
      ⟨"s1", true, "weather_based", 10, 70, 30, false, "aggressive", 0⟩
      { enabled := some false } "s2" 99)
  exact ⟨h2, hen false rfl, hmo rfl, hts⟩

/-! ## Auto-persist service (`AutoPersistService`): re-entrancy guard

The timer callback is modelled at cycle granularity: a `timerFire n` event is
one firing of the interval timer while `n` panels have data; if the
`isPersisting` guard is set the callback only warns and returns, otherwise it
sets the guard and starts one persistence cycle (whose reading creation and
single broadcast are attributed to the start). A `cycleEnd` event is the
`finally` block of a running cycle clearing the guard. -/

/-- What can happen to the service: the interval timer fires (with `n`
panels' sensor data available), or an in-flight cycle's `finally` runs. -/
inductive SvcEvent where
  | timerFire (panels : ℕ)
  | cycleEnd
  deriving DecidableEq, Repr

/-- Observable service state: the re-entrancy flag, how many persistence
cycles are currently executing, warnings logged, readings created and
broadcasts sent by started cycles. -/
structure SvcState where
  isPersisting : Bool
  running : ℕ
  warnings : ℕ
  readingsCreated : ℕ
  broadcasts : ℕ
  deriving DecidableEq, Repr

/-- The service before the first tick. -/
def svcInit : SvcState := ⟨false, 0, 0, 0, 0⟩

/-- One event: the interval callback with its guard, or a cycle finishing
(`isPersisting = false` in the `finally`). -/
def svcStep (s : SvcState) : SvcEvent → SvcState
  | .timerFire n =>
    if s.isPersisting then
      { s with warnings := s.warnings + 1 }
    else
      { s with
        isPersisting := true
        running := s.running + 1
        readingsCreated := s.readingsCreated + n
        broadcasts := s.broadcasts + 1 }
  | .cycleEnd =>
    if s.running = 0 then s
    else { s with running := s.running - 1, isPersisting := false }

/-- A whole event trace. -/
def svcRun (s : SvcState) (events : List SvcEvent) : SvcState :=
  events.foldl svcStep s

/-- The guard invariant: never more than one cycle in flight, and the flag
tracks exactly whether one is. -/
def SvcInv (s : SvcState) : Prop :=
  s.running ≤ 1 ∧ (s.isPersisting = true ↔ s.running = 1)

theorem svcStep_inv (s : SvcState) (e : SvcEvent) (h : SvcInv s) :
    SvcInv (svcStep s e) := by
  obtain ⟨h1, h2⟩ := h
  cases e with
  | timerFire n =>
    by_cases hp : s.isPersisting = true
    · have hstep : svcStep s (.timerFire n) = { s with warnings := s.warnings + 1 } := by
        simp [svcStep, hp]
      rw [hstep]
      exact ⟨h1, h2⟩
    · have hp' : s.isPersisting = false := by simpa using hp
      have hr : s.running = 0 := by
        rcases Nat.le_one_iff_eq_zero_or_eq_one.mp h1 with h | h
        · exact h
        · exact absurd (h2.mpr h) (by simp [hp'])
      have hstep : svcStep s (.timerFire n) =
          { s with
            isPersisting := true
            running := s.running + 1
            readingsCreated := s.readingsCreated + n
            broadcasts := s.broadcasts + 1 } := by
        simp [svcStep, hp']
      rw [hstep]
      simp [SvcInv, hr]
  | cycleEnd =>
    by_cases hr : s.running = 0
    · have hstep : svcStep s .cycleEnd = s := by simp [svcStep, hr]
      rw [hstep]
      exact ⟨h1, h2⟩
    · have hstep : svcStep s .cycleEnd =
          { s with running := s.running - 1, isPersisting := false } := by
        simp [svcStep, hr]
      rw [hstep]
      have hone : s.running = 1 := by omega
      simp [SvcInv, hone]

theorem svcRun_inv (s : SvcState) (h : SvcInv s) :
    ∀ events : List SvcEvent, SvcInv (svcRun s events)
  | [] => h
  | e :: evs => svcRun_inv (svcStep s e) (svcStep_inv s e h) evs

/-- C8: (a) a timer firing while a prior cycle's work is in flight only
increments the warning counter — no persistence, no broadcast, no cycle is
started, nothing is queued; (b) along every event trace from startup, at most
one ingestion cycle is executing at any time, and the guard flag holds
exactly while one is. -/
theorem autoPersist_reentrancy_guard :
    (∀ (s : SvcState) (n : ℕ), s.isPersisting = true →
        svcStep s (.timerFire n) = { s with warnings := s.warnings + 1 }) ∧
    ∀ events : List SvcEvent,
      (svcRun svcInit events).running ≤ 1 ∧
      ((svcRun svcInit events).isPersisting = true ↔
        (svcRun svcInit events).running = 1) := by
  constructor
  · intro s n hp
    simp [svcStep, hp]
  · exact svcRun_inv svcInit ⟨by simp [svcInit], by simp [svcInit]⟩

/-- C8 witness: a tick arriving while a cycle is in flight only warns, and a
trace with an overlapping second tick never has two cycles running. -/
theorem autoPersist_reentrancy_guard_witness :
    svcStep ⟨true, 1, 0, 5, 1⟩ (.timerFire 3) = ⟨true, 1, 1, 5, 1⟩ ∧
    (svcRun svcInit
        [.timerFire 3, .timerFire 4, .cycleEnd, .timerFire 2]).running ≤ 1 :=
  ⟨(autoPersist_reentrancy_guard.1 ⟨true, 1, 0, 5, 1⟩ 3 rfl).trans (by decide),
    (autoPersist_reentrancy_guard.2
      [.timerFire 3, .timerFire 4, .cycleEnd, .timerFire 2]).1⟩

end Solar
